import Mathlib

/-!
Verification of the fact-matching / judging engine.

This file gives a shallow embedding of the core of the repository:

* `app/backend/services/metrics_service.py` — metric computation
  (`compute_metrics`, `compute_precision`, `compute_recall`, `compute_f1`,
  `compute_confusion_matrix`, `_count_status`, `aggregate_metrics`);
* `app/backend/services/judge_service.py` — the deterministic reconciliation
  part of `run_judge` (link building from the two verdict sets, the
  promotion pass, the downgrade pass, the fan-out collapse, and the final
  per-fact assembly), plus `_extract_fact_array`, `_expand_predicted_facts`
  and `_normalize_entity_type`;
* `app/backend/services/llm_service.py` — `calculate_schema_stability`;
* `app/backend/services/schema_utils.py` — `flatten_dict_keys`.

Modelling conventions:

* Python `float` values produced by the metric formulas are modelled as `ℚ`;
  every division the code performs is guarded by the code itself, and the
  claims under check are about those guards and about exact equalities that
  hold identically in both arithmetics.
* Counts are `ℕ`.
* A normalized fact (the dictionaries produced by `_normalize_facts`) is
  modelled by `NFact`; only the fields the reconciliation reads (`id`,
  `fact_type`, `in_scope`) are carried.  The `description` field and the
  audit note strings (`dedup_notes`, `gold_fact_notes`, ...) are not
  modelled: in the source they are only ever appended to `description` /
  `notes` and never influence any `id`, `status` or `matched_ids`.
* The LLM verdict dictionaries are modelled by `Verdict`; a missing
  dictionary entry is modelled by the defaulted value the code substitutes
  for it (`"FN"` / `"FP"` status, `None` match), which is behaviourally
  identical.
* Python dictionaries keyed by fact id are modelled as association lists
  looked up with `find?`.  `_normalize_facts` guarantees ids are unique
  within each side, so first-match lookup agrees with Python's dict; the
  general theorems below carry that uniqueness as a `Nodup` hypothesis.
-/

/-- One normalized fact as produced by `_normalize_facts`: the fields of the
fact dictionary that the reconciliation in `run_judge` reads. -/
structure NFact where
  id : String
  fact_type : String
  in_scope : Bool
deriving Repr, DecidableEq

/-- One verdict returned by the per-fact judge call: the `status` field and
the declared counterpart id (`matched_predicted_id` on the gold side,
`matched_gold_id` on the predicted side, both nullable). -/
structure Verdict where
  status : String
  matched : Option String
deriving Repr, DecidableEq

/-- A labeled fact of the final `JudgeResult` (schema `LabeledFact`): id,
type, scope flag, the reconciled `matched_ids` and the final `status`. -/
structure LabeledFact where
  id : String
  fact_type : String
  in_scope : Bool
  matched_ids : List String
  status : String
deriving Repr, DecidableEq

/-- The `JudgeResult` payload (schema `JudgeResult`); the free-text `notes`
field carries no label information and is not modelled. -/
structure JudgeResult where
  gold_facts : List LabeledFact
  predicted_facts : List LabeledFact
deriving Repr, DecidableEq

/-- The `ComputedMetrics` schema. -/
structure ComputedMetrics where
  precision : ℚ
  «recall» : ℚ
  f1 : ℚ
  tp_count : ℕ
  fp_count : ℕ
  fn_count : ℕ
  hallucination_rate : ℚ
  coverage : ℚ
deriving Repr, DecidableEq

/-- The dictionary returned by `compute_confusion_matrix`. -/
structure ConfusionMatrix where
  TP : ℕ
  FP : ℕ
  FN : ℕ
  TN : ℕ
deriving Repr, DecidableEq

/-- `_count_status` from `metrics_service.py`: count facts with the given
status; the `in_scope` gate is bypassed exactly when the counted status is
`"FP"` (hallucination-tracking policy). -/
def count_status (facts : List LabeledFact) (status : String) : ℕ :=
  facts.countP (fun fact => decide (fact.status = status ∧ (fact.in_scope = true ∨ status = "FP")))

/-- `compute_precision`: `TP / (TP + FP)` with an explicit zero-denominator
guard returning `0.0`. -/
def compute_precision (tp_count fp_count : ℕ) : ℚ :=
  let denominator := tp_count + fp_count
  if denominator = 0 then 0 else (tp_count : ℚ) / (denominator : ℚ)

/-- `compute_recall`: `TP / (TP + FN)` with an explicit zero-denominator
guard returning `0.0`. -/
def compute_recall (tp_count fn_count : ℕ) : ℚ :=
  let denominator := tp_count + fn_count
  if denominator = 0 then 0 else (tp_count : ℚ) / (denominator : ℚ)

/-- `compute_f1`: `2·p·r/(p+r)` with an explicit zero-denominator guard
returning `0.0`. -/
def compute_f1 (precision «recall» : ℚ) : ℚ :=
  let denominator := precision + «recall»
  if denominator = 0 then 0 else 2 * (precision * «recall») / denominator

/-- `compute_metrics` from `metrics_service.py`. -/
def compute_metrics (judge_result : JudgeResult) : ComputedMetrics :=
  let tp_count := count_status judge_result.gold_facts "TP"
  let fp_count := count_status judge_result.predicted_facts "FP"
  let fn_count := count_status judge_result.gold_facts "FN"
  let precision := compute_precision tp_count fp_count
  let «recall» := compute_recall tp_count fn_count
  let f1 := compute_f1 precision «recall»
  { precision := precision
    «recall» := «recall»
    f1 := f1
    tp_count := tp_count
    fp_count := fp_count
    fn_count := fn_count
    hallucination_rate := 1 - precision
    coverage := «recall» }

/-- `compute_confusion_matrix` from `metrics_service.py`: note that `TP` is
counted on the predicted side here, while `compute_metrics` counts it on the
gold side. -/
def compute_confusion_matrix (judge_result : JudgeResult) : ConfusionMatrix :=
  { TP := count_status judge_result.predicted_facts "TP"
    FP := count_status judge_result.predicted_facts "FP"
    FN := count_status judge_result.gold_facts "FN"
    TN := 0 }

/-- `aggregate_metrics` from `metrics_service.py`: sum the raw counts, then
recompute the ratio metrics from the summed counts. -/
def aggregate_metrics (metrics_list : List ComputedMetrics) : ComputedMetrics :=
  match metrics_list with
  | [] =>
      { precision := 0, «recall» := 0, f1 := 0, tp_count := 0, fp_count := 0,
        fn_count := 0, hallucination_rate := 1, coverage := 0 }
  | _ :: _ =>
      let total_tp := (metrics_list.map (·.tp_count)).sum
      let total_fp := (metrics_list.map (·.fp_count)).sum
      let total_fn := (metrics_list.map (·.fn_count)).sum
      let precision := compute_precision total_tp total_fp
      let «recall» := compute_recall total_tp total_fn
      { precision := precision
        «recall» := «recall»
        f1 := compute_f1 precision «recall»
        tp_count := total_tp
        fp_count := total_fp
        fn_count := total_fn
        hallucination_rate := 1 - precision
        coverage := «recall» }

/-- C8: `compute_precision` and `compute_recall` return exactly `0` when
their denominator is `0`, and `compute_f1` returns exactly `0` when
`precision + «recall» = 0`; being total `ℚ`-valued functions whose only
divisions sit under these guards, none of them can divide by zero, raise,
or produce an undefined value. -/
theorem zero_denominator_guards (tp fp fn : ℕ) (p r : ℚ) :
    (tp + fp = 0 → compute_precision tp fp = 0) ∧
    (tp + fn = 0 → compute_recall tp fn = 0) ∧
    (p + r = 0 → compute_f1 p r = 0) := by
  refine ⟨fun h => ?_, fun h => ?_, fun h => ?_⟩ <;>
    simp [compute_precision, compute_recall, compute_f1, h]

theorem zero_denominator_guards_witness :
    (0 + 0 = 0 ∧ compute_precision 0 0 = 0) ∧
    (0 + 0 = 0 ∧ compute_recall 0 0 = 0) ∧
    ((0 : ℚ) + 0 = 0 ∧ compute_f1 0 0 = 0) :=
  ⟨⟨rfl, (zero_denominator_guards 0 0 0 0 0).1 rfl⟩,
   ⟨rfl, (zero_denominator_guards 0 0 0 0 0).2.1 rfl⟩,
   ⟨by norm_num, (zero_denominator_guards 0 0 0 0 0).2.2 (by norm_num)⟩⟩

/-- C10: aggregating an empty list of metrics yields all counts `0`, all
ratio metrics `0`, and `hallucination_rate = 1` — zero runs report full
hallucination. -/
theorem aggregate_empty_full_hallucination :
    aggregate_metrics [] =
      { precision := 0, «recall» := 0, f1 := 0, tp_count := 0, fp_count := 0,
        fn_count := 0, hallucination_rate := 1, coverage := 0 } := rfl

/-- C6: characterisation of the `_count_status` scope policy, and hence of
the three counts `compute_metrics` produces: `fp_count` counts every
predicted fact with status `"FP"` regardless of `in_scope`, while `tp_count`
and `fn_count` count only in-scope gold facts — the `in_scope` gate is
bypassed exactly for status `"FP"`. -/
theorem count_status_scope_policy :
    (∀ facts : List LabeledFact,
      count_status facts "FP" = facts.countP (fun f => decide (f.status = "FP"))) ∧
    (∀ (facts : List LabeledFact) (s : String), s ≠ "FP" →
      count_status facts s = facts.countP (fun f => decide (f.status = s ∧ f.in_scope = true))) ∧
    (∀ jr : JudgeResult,
      (compute_metrics jr).fp_count
          = jr.predicted_facts.countP (fun f => decide (f.status = "FP")) ∧
      (compute_metrics jr).tp_count
          = jr.gold_facts.countP (fun f => decide (f.status = "TP" ∧ f.in_scope = true)) ∧
      (compute_metrics jr).fn_count
          = jr.gold_facts.countP (fun f => decide (f.status = "FN" ∧ f.in_scope = true))) := by
  have hfp : ∀ facts : List LabeledFact,
      count_status facts "FP" = facts.countP (fun f => decide (f.status = "FP")) := by
    intro facts
    unfold count_status
    refine List.countP_congr ?_
    intro f _
    simp
  have hgate : ∀ (facts : List LabeledFact) (s : String), s ≠ "FP" →
      count_status facts s = facts.countP (fun f => decide (f.status = s ∧ f.in_scope = true)) := by
    intro facts s hs
    unfold count_status
    refine List.countP_congr ?_
    intro f _
    simp [hs]
  refine ⟨hfp, hgate, fun jr => ⟨hfp jr.predicted_facts, ?_, ?_⟩⟩
  · exact hgate jr.gold_facts "TP" (by decide)
  · exact hgate jr.gold_facts "FN" (by decide)

theorem count_status_scope_policy_witness :
    (("TP" : String) ≠ "FP") ∧
    (count_status [⟨"p9", "asset", false, [], "TP"⟩] "TP"
        = [(⟨"p9", "asset", false, [], "TP"⟩ : LabeledFact)].countP
            (fun f => decide (f.status = "TP" ∧ f.in_scope = true))) :=
  ⟨by decide,
   count_status_scope_policy.2.1 [⟨"p9", "asset", false, [], "TP"⟩] "TP" (by decide)⟩

/-- C7: on a non-empty list, `aggregate_metrics` sums the raw counts and
recomputes every ratio from the summed counts via `compute_precision`,
`compute_recall` and `compute_f1`; it is not the mean of the per-run ratios
(second conjunct: a two-run instance where the aggregate precision differs
from the average of the two precisions). -/
theorem aggregate_sums_then_recompute :
    (∀ l : List ComputedMetrics, l ≠ [] →
      aggregate_metrics l =
        { precision := compute_precision ((l.map (·.tp_count)).sum) ((l.map (·.fp_count)).sum)
          «recall» := compute_recall ((l.map (·.tp_count)).sum) ((l.map (·.fn_count)).sum)
          f1 := compute_f1
                  (compute_precision ((l.map (·.tp_count)).sum) ((l.map (·.fp_count)).sum))
                  (compute_recall ((l.map (·.tp_count)).sum) ((l.map (·.fn_count)).sum))
          tp_count := (l.map (·.tp_count)).sum
          fp_count := (l.map (·.fp_count)).sum
          fn_count := (l.map (·.fn_count)).sum
          hallucination_rate :=
            1 - compute_precision ((l.map (·.tp_count)).sum) ((l.map (·.fp_count)).sum)
          coverage := compute_recall ((l.map (·.tp_count)).sum) ((l.map (·.fn_count)).sum) }) ∧
    (aggregate_metrics [⟨1, 1, 1, 1, 0, 0, 0, 1⟩, ⟨0, 0, 0, 0, 100, 0, 1, 0⟩]).precision ≠
      ((⟨1, 1, 1, 1, 0, 0, 0, 1⟩ : ComputedMetrics).precision
        + (⟨0, 0, 0, 0, 100, 0, 1, 0⟩ : ComputedMetrics).precision) / 2 := by
  constructor
  · intro l hl
    match l with
    | [] => exact absurd rfl hl
    | _ :: _ => rfl
  · norm_num [aggregate_metrics, compute_precision]

theorem aggregate_sums_then_recompute_witness :
    (([⟨1, 1, 1, 1, 0, 0, 0, 1⟩] : List ComputedMetrics) ≠ []) ∧
    aggregate_metrics [⟨1, 1, 1, 1, 0, 0, 0, 1⟩] =
      { precision := compute_precision
          (([(⟨1, 1, 1, 1, 0, 0, 0, 1⟩ : ComputedMetrics)].map (·.tp_count)).sum)
          (([(⟨1, 1, 1, 1, 0, 0, 0, 1⟩ : ComputedMetrics)].map (·.fp_count)).sum)
        «recall» := compute_recall
          (([(⟨1, 1, 1, 1, 0, 0, 0, 1⟩ : ComputedMetrics)].map (·.tp_count)).sum)
          (([(⟨1, 1, 1, 1, 0, 0, 0, 1⟩ : ComputedMetrics)].map (·.fn_count)).sum)
        f1 := compute_f1
          (compute_precision
            (([(⟨1, 1, 1, 1, 0, 0, 0, 1⟩ : ComputedMetrics)].map (·.tp_count)).sum)
            (([(⟨1, 1, 1, 1, 0, 0, 0, 1⟩ : ComputedMetrics)].map (·.fp_count)).sum))
          (compute_recall
            (([(⟨1, 1, 1, 1, 0, 0, 0, 1⟩ : ComputedMetrics)].map (·.tp_count)).sum)
            (([(⟨1, 1, 1, 1, 0, 0, 0, 1⟩ : ComputedMetrics)].map (·.fn_count)).sum))
        tp_count := ([(⟨1, 1, 1, 1, 0, 0, 0, 1⟩ : ComputedMetrics)].map (·.tp_count)).sum
        fp_count := ([(⟨1, 1, 1, 1, 0, 0, 0, 1⟩ : ComputedMetrics)].map (·.fp_count)).sum
        fn_count := ([(⟨1, 1, 1, 1, 0, 0, 0, 1⟩ : ComputedMetrics)].map (·.fn_count)).sum
        hallucination_rate := 1 - compute_precision
          (([(⟨1, 1, 1, 1, 0, 0, 0, 1⟩ : ComputedMetrics)].map (·.tp_count)).sum)
          (([(⟨1, 1, 1, 1, 0, 0, 0, 1⟩ : ComputedMetrics)].map (·.fp_count)).sum)
        coverage := compute_recall
          (([(⟨1, 1, 1, 1, 0, 0, 0, 1⟩ : ComputedMetrics)].map (·.tp_count)).sum)
          (([(⟨1, 1, 1, 1, 0, 0, 0, 1⟩ : ComputedMetrics)].map (·.fn_count)).sum) } :=
  ⟨by simp, aggregate_sums_then_recompute.1 [⟨1, 1, 1, 1, 0, 0, 0, 1⟩] (by simp)⟩

/-! ## Reconciliation (`run_judge`, judge_service.py lines 383-506)

`run_judge` first normalizes both fact collections, then collects one
verdict per in-scope fact on each side, and finally reconciles the two
verdict sets deterministically.  The reconciliation is embedded below as a
function of the two normalized fact lists and the two verdict maps
(`gold_decisions` / `predicted_decisions`, modelled as functions from fact
id to `Option Verdict`).  The LLM calls themselves are the injected
evaluator capability and are outside this embedding. -/

/-- Python truthiness of an optional string (`matched_pred and ...`):
`None` and `""` are falsy. -/
def truthyStr : Option String → Bool
  | none => false
  | some s => !(s == "")

/-- Status of a decision with the side's default (`decision.get("status",
"FN")` resp. `"FP"`); a missing decision dictionary (`gold_decisions.get(id,
{})`) contributes the default. -/
def vStatus (decision : Option Verdict) (default : String) : String :=
  match decision with
  | some v => v.status
  | none => default

/-- Declared counterpart id of a decision (`decision.get("matched_..._id")`). -/
def vMatched (decision : Option Verdict) : Option String :=
  match decision with
  | some v => v.matched
  | none => none

/-- Lookup of a fact by id (`gold_map` / `predicted_map` dictionary lookup;
ids are unique after normalization, so first-match is the dict lookup). -/
def findFact (facts : List NFact) (i : String) : Option NFact :=
  facts.find? (fun f => f.id == i)

/-- `matched in map and map[matched]["in_scope"]`. -/
def inScopeId (facts : List NFact) (i : String) : Bool :=
  match findFact facts i with
  | some f => f.in_scope
  | none => false

/-- Adding a pair to the `match_links` set: no duplicates. -/
def insertLink (links : List (String × String)) (x : String × String) :
    List (String × String) :=
  if x ∈ links then links else links ++ [x]

/-- First pass over the scoped gold facts (lines 389-401): record nothing
but the links — a link `(g, p)` is added when `g`'s verdict is `TP`
declaring a truthy `p` that exists in the predicted map and is in scope. -/
def goldPassLinks (pred : List NFact) (gv : String → Option Verdict)
    (scopedGold : List NFact) : List (String × String) :=
  scopedGold.foldl
    (fun links f =>
      if vStatus (gv f.id) "FN" = "TP" ∧ truthyStr (vMatched (gv f.id)) = true ∧
          inScopeId pred ((vMatched (gv f.id)).getD "") = true then
        insertLink links (f.id, (vMatched (gv f.id)).getD "")
      else links)
    []

/-- Second pass over the scoped predicted facts (lines 403-415): a link
`(g, p)` is added when `p`'s verdict is `TP` declaring a truthy `g` that
exists in the gold map and is in scope. -/
def predPassLinks (gold : List NFact) (pv : String → Option Verdict)
    (scopedPred : List NFact) (links0 : List (String × String)) :
    List (String × String) :=
  scopedPred.foldl
    (fun links f =>
      if vStatus (pv f.id) "FP" = "TP" ∧ truthyStr (vMatched (pv f.id)) = true ∧
          inScopeId gold ((vMatched (pv f.id)).getD "") = true then
        insertLink links ((vMatched (pv f.id)).getD "", f.id)
      else links)
    links0

/-- `gold_initial_status` / `predicted_initial_status`: association list
from scoped fact id to the side's initial verdict status, in scoped order. -/
def initStatuses (default : String) (verdicts : String → Option Verdict)
    (scopedFacts : List NFact) : List (String × String) :=
  scopedFacts.map (fun f => (f.id, vStatus (verdicts f.id) default))

/-- Dictionary read (`d.get(k)`): first binding for the key, if any. -/
def lookupStat (stats : List (String × String)) (k : String) : Option String :=
  (stats.find? (fun p => p.1 == k)).map (·.2)

/-- Dictionary write (`d[k] = v`); keys are unique in the source dicts, so
rewriting every binding of `k` is the same operation. -/
def setStat (stats : List (String × String)) (k v : String) :
    List (String × String) :=
  stats.map (fun p => if p.1 = k then (p.1, v) else p)

/-- Promotion pass (lines 421-432): for each scoped predicted fact, in
order, whose verdict is `TP` declaring a truthy gold id currently recorded
as `FN`, trust the predicted claim — add the link and force the gold status
to `TP`.  State: (`gold_initial_status`, `match_links`). -/
def promotePass (pv : String → Option Verdict) (scopedPred : List NFact)
    (st0 : List (String × String) × List (String × String)) :
    List (String × String) × List (String × String) :=
  scopedPred.foldl
    (fun st f =>
      if vStatus (pv f.id) "FP" = "TP" ∧ truthyStr (vMatched (pv f.id)) = true ∧
          lookupStat st.1 ((vMatched (pv f.id)).getD "") = some "FN" then
        (setStat st.1 ((vMatched (pv f.id)).getD "") "TP",
         insertLink st.2 ((vMatched (pv f.id)).getD "", f.id))
      else st)
    st0

/-- Downgrade pass (lines 434-447): for each scoped gold fact, in order,
that declared a truthy match and is currently `TP`, while the declared
predicted fact's own verdict was `FP` — trust the predicted self-assessment:
remove the link and revert the gold status to `FN`.
`predStat` is the (never rewritten) `predicted_initial_status`. -/
def downgradePass (gv : String → Option Verdict)
    (predStat : List (String × String)) (scopedGold : List NFact)
    (st0 : List (String × String) × List (String × String)) :
    List (String × String) × List (String × String) :=
  scopedGold.foldl
    (fun st f =>
      if truthyStr (vMatched (gv f.id)) = true ∧ lookupStat st.1 f.id = some "TP" ∧
          lookupStat predStat ((vMatched (gv f.id)).getD "") = some "FP" then
        (setStat st.1 f.id "FN", st.2.erase (f.id, (vMatched (gv f.id)).getD ""))
      else st)
    st0

/-- Position of an id in a side's id list: the `order_map` captured at
normalization time (`order_map[fact_id] = len(order_map)`; ids are unique,
so the position is the list index of the id). -/
def idIndex : List String → String → Option Nat
  | [], _ => none
  | x :: xs, y => if x = y then some 0 else (idIndex xs y).map (· + 1)

/-- `predicted_order.get(pid, 0)`, the sort key used by the fan-out
collapse. -/
def orderKey (ids : List String) (i : String) : Nat :=
  (idIndex ids i).getD 0

/-- Fan-out collapse (lines 449-463): group the links by gold id; for a gold
fact linked to several predicted facts keep only the link whose predicted
fact appears earliest in the predicted input order, removing every other
link of that gold fact.  Expressed as a filter: a link survives iff its
predicted fact's order key is minimal among the links sharing its gold id
(order keys of distinct existing ids are distinct, so "first of the list
sorted by order key" is exactly "minimal order key"). -/
def collapsePass (predIds : List String) (links : List (String × String)) :
    List (String × String) :=
  links.filter
    (fun x => decide (∀ y ∈ links, y.1 = x.1 → orderKey predIds x.2 ≤ orderKey predIds y.2))

/-- Final gold assembly (lines 476-490): out-of-scope facts are forced to
`FN` with no links; in-scope facts take the surviving links (sorted by
predicted input order — realized by filtering the predicted id list, which
enumerates ids in exactly that order) and are `TP` iff some link survives. -/
def finalizeGold (gold pred : List NFact) (links : List (String × String)) :
    List LabeledFact :=
  gold.map
    (fun f =>
      if f.in_scope then
        let ms := (pred.map (·.id)).filter (fun p => decide ((f.id, p) ∈ links))
        { id := f.id, fact_type := f.fact_type, in_scope := f.in_scope,
          matched_ids := ms,
          status := if ms.isEmpty then "FN" else "TP" }
      else
        { id := f.id, fact_type := f.fact_type, in_scope := f.in_scope,
          matched_ids := [], status := "FN" })

/-- Final predicted assembly (lines 492-506), symmetric with `FP`. -/
def finalizePred (gold pred : List NFact) (links : List (String × String)) :
    List LabeledFact :=
  pred.map
    (fun f =>
      if f.in_scope then
        let ms := (gold.map (·.id)).filter (fun g => decide ((g, f.id) ∈ links))
        { id := f.id, fact_type := f.fact_type, in_scope := f.in_scope,
          matched_ids := ms,
          status := if ms.isEmpty then "FP" else "TP" }
      else
        { id := f.id, fact_type := f.fact_type, in_scope := f.in_scope,
          matched_ids := [], status := "FP" })

/-- The `match_links` set just before the fan-out collapse: both link
building passes, then promotion, then downgrade. -/
def preCollapseLinks (gold pred : List NFact) (gv pv : String → Option Verdict) :
    List (String × String) :=
  (downgradePass gv (initStatuses "FP" pv (pred.filter (·.in_scope)))
    (gold.filter (·.in_scope))
    (promotePass pv (pred.filter (·.in_scope))
      (initStatuses "FN" gv (gold.filter (·.in_scope)),
       predPassLinks gold pv (pred.filter (·.in_scope))
         (goldPassLinks pred gv (gold.filter (·.in_scope)))))).2

/-- The surviving `match_links` set after all reconciliation passes. -/
def reconLinks (gold pred : List NFact) (gv pv : String → Option Verdict) :
    List (String × String) :=
  collapsePass (pred.map (·.id)) (preCollapseLinks gold pred gv pv)

/-- The reconciliation of `run_judge`: the final labeled `JudgeResult` as a
function of the normalized facts and the collected verdicts. -/
def reconcile (gold pred : List NFact) (gv pv : String → Option Verdict) :
    JudgeResult :=
  { gold_facts := finalizeGold gold pred (reconLinks gold pred gv pv)
    predicted_facts := finalizePred gold pred (reconLinks gold pred gv pv) }

/-! ## Concrete reconciliation scenarios -/

/-- Scoped gold input of the downgrade test (spec §8, first end-to-end
test): one in-scope gold fact `g1` of type `asset`. -/
def dGold : List NFact := [⟨"g1", "asset", true⟩]

/-- Predicted input of the downgrade test: one in-scope predicted fact
`p1`. -/
def dPred : List NFact := [⟨"p1", "asset", true⟩]

/-- Gold verdicts of the downgrade test: `g1` claims `TP` matching `p1`. -/
def dGv : String → Option Verdict :=
  fun i => if i = "g1" then some ⟨"TP", some "p1"⟩ else none

/-- Predicted verdicts of the downgrade test: `p1` labels itself `FP` with
no declared match. -/
def dPv : String → Option Verdict :=
  fun i => if i = "p1" then some ⟨"FP", none⟩ else none

/-- C3: downgrade rule end-to-end.  Gold `g1` (in scope) declares `TP`→`p1`
while `p1`'s own verdict is `FP` with no match: reconciliation downgrades
`g1` to `FN` with empty `matched_ids`, leaves `p1` at `FP`, and
`compute_metrics` yields `tp=0, fp=1, fn=1, precision=0, recall=0` (hence
`f1=0`, `hallucination_rate=1`, `coverage=0`). -/
theorem downgrade_end_to_end :
    reconcile dGold dPred dGv dPv =
      ⟨[⟨"g1", "asset", true, [], "FN"⟩], [⟨"p1", "asset", true, [], "FP"⟩]⟩ ∧
    compute_metrics (reconcile dGold dPred dGv dPv) =
      { precision := 0, «recall» := 0, f1 := 0, tp_count := 0, fp_count := 1,
        fn_count := 1, hallucination_rate := 1, coverage := 0 } := by
  have h : reconcile dGold dPred dGv dPv =
      ⟨[⟨"g1", "asset", true, [], "FN"⟩], [⟨"p1", "asset", true, [], "FP"⟩]⟩ := by
    decide
  refine ⟨h, ?_⟩
  rw [h]
  norm_num [compute_metrics, count_status, compute_precision, compute_recall,
    compute_f1, List.countP_cons]
  decide

/-- Gold input of the shared-prediction instance: two in-scope gold facts. -/
def cGold : List NFact := [⟨"g1", "asset", true⟩, ⟨"g2", "asset", true⟩]

/-- Predicted input of the shared-prediction instance: one in-scope
predicted fact. -/
def cPred : List NFact := [⟨"p1", "asset", true⟩]

/-- Gold verdicts of the shared-prediction instance: both gold facts claim
`TP` matching the same `p1`. -/
def cGv : String → Option Verdict :=
  fun i =>
    if i = "g1" then some ⟨"TP", some "p1"⟩
    else if i = "g2" then some ⟨"TP", some "p1"⟩ else none

/-- Predicted verdicts of the shared-prediction instance: `p1` claims `TP`
matching `g1`. -/
def cPv : String → Option Verdict :=
  fun i => if i = "p1" then some ⟨"TP", some "g1"⟩ else none

/-- C1 counterexample: the fan-out collapse only runs in the gold→predicted
direction, so one predicted fact may stay matched to two gold facts.  On
this input both gold facts are `TP` but only one predicted fact is, so the
gold-side TP count of `compute_metrics` is `2` while the predicted-side TP
count of `compute_confusion_matrix` is `1` — the two counts disagree. -/
theorem tp_counts_disagree_cex :
    (compute_metrics (reconcile cGold cPred cGv cPv)).tp_count = 2 ∧
    (compute_confusion_matrix (reconcile cGold cPred cGv cPv)).TP = 1 ∧
    (compute_metrics (reconcile cGold cPred cGv cPv)).tp_count ≠
      (compute_confusion_matrix (reconcile cGold cPred cGv cPv)).TP := by
  refine ⟨?_, ?_, ?_⟩ <;> decide

/-- C2 counterexample: on the same shared-prediction input, the predicted
fact `p1` ends the reconciliation with `matched_ids = ["g1", "g2"]` — two
ids, refuting "at most one id on the predicted side alike". -/
theorem predicted_matched_ids_two_cex :
    (reconcile cGold cPred cGv cPv).predicted_facts =
      [⟨"p1", "asset", true, ["g1", "g2"], "TP"⟩] ∧
    ((reconcile cGold cPred cGv cPv).predicted_facts.map
        (fun f => f.matched_ids.length)) = [2] := by
  refine ⟨?_, ?_⟩ <;> decide

/-! ## Invariants of the reconciliation -/

/-- A property preserved by every step of a left fold holds of the fold. -/
theorem foldl_inv {α σ : Type _} (P : σ → Prop) (f : σ → α → σ) :
    ∀ (l : List α) (s : σ), P s → (∀ s a, a ∈ l → P s → P (f s a)) →
      P (l.foldl f s) := by
  intro l
  induction l with
  | nil => exact fun s hs _ => hs
  | cons x xs ih =>
      intro s hs hstep
      exact ih (f s x) (hstep s x (List.mem_cons_self x xs) hs)
        (fun s' a ha hp => hstep s' a (List.mem_cons_of_mem _ ha) hp)

/-- Every link references an existing in-scope gold fact on the left and an
existing in-scope predicted fact on the right. -/
def LinksOk (gold pred : List NFact) (links : List (String × String)) : Prop :=
  ∀ x ∈ links,
    (∃ f ∈ gold, f.id = x.1 ∧ f.in_scope = true) ∧
    (∃ f ∈ pred, f.id = x.2 ∧ f.in_scope = true)

theorem inScopeId_spec (facts : List NFact) (i : String)
    (h : inScopeId facts i = true) :
    ∃ f ∈ facts, f.id = i ∧ f.in_scope = true := by
  unfold inScopeId findFact at h
  cases hf : facts.find? (fun f => f.id == i) with
  | none => rw [hf] at h; cases h
  | some f =>
      rw [hf] at h
      exact ⟨f, List.mem_of_find?_eq_some hf, by simpa using List.find?_some hf, h⟩

theorem linksOk_insert {gold pred : List NFact} {links : List (String × String)}
    {x : String × String} (h : LinksOk gold pred links)
    (h1 : ∃ f ∈ gold, f.id = x.1 ∧ f.in_scope = true)
    (h2 : ∃ f ∈ pred, f.id = x.2 ∧ f.in_scope = true) :
    LinksOk gold pred (insertLink links x) := by
  intro y hy
  unfold insertLink at hy
  split at hy
  · exact h y hy
  · rcases List.mem_append.mp hy with hmem | hmem
    · exact h y hmem
    · rcases List.mem_singleton.mp hmem with rfl
      exact ⟨h1, h2⟩

theorem nodup_insertLink {links : List (String × String)} {x : String × String}
    (h : links.Nodup) : (insertLink links x).Nodup := by
  unfold insertLink
  split
  · exact h
  · next hx => simpa [List.nodup_append] using ⟨h, hx⟩

theorem linksOk_erase {gold pred : List NFact} {links : List (String × String)}
    {x : String × String} (h : LinksOk gold pred links) :
    LinksOk gold pred (links.erase x) :=
  fun y hy => h y (List.mem_of_mem_erase hy)

theorem linksOk_filter {gold pred : List NFact} {links : List (String × String)}
    {p : String × String → Bool} (h : LinksOk gold pred links) :
    LinksOk gold pred (links.filter p) :=
  fun y hy => h y (List.mem_filter.mp hy).1

theorem lookupStat_some_mem {stats : List (String × String)} {k s : String}
    (h : lookupStat stats k = some s) : k ∈ stats.map (·.1) := by
  unfold lookupStat at h
  cases hf : stats.find? (fun p => p.1 == k) with
  | none => rw [hf] at h; cases h
  | some p =>
      have hm := List.mem_of_find?_eq_some hf
      have hk : p.1 = k := by simpa using List.find?_some hf
      exact hk ▸ List.mem_map_of_mem (·.1) hm

theorem setStat_fst (stats : List (String × String)) (k v : String) :
    (setStat stats k v).map (·.1) = stats.map (·.1) := by
  unfold setStat
  rw [List.map_map]
  refine List.map_congr_left ?_
  intro p _
  by_cases h : p.1 = k <;> simp [h]

theorem goldPassLinks_ok (gold pred : List NFact) (gv : String → Option Verdict) :
    LinksOk gold pred (goldPassLinks pred gv (gold.filter (·.in_scope))) ∧
    (goldPassLinks pred gv (gold.filter (·.in_scope))).Nodup := by
  unfold goldPassLinks
  refine foldl_inv (fun links => LinksOk gold pred links ∧ links.Nodup) _ _ _
    ⟨fun x hx => absurd hx (List.not_mem_nil x), List.nodup_nil⟩ ?_
  intro s a ha hP
  dsimp only
  split
  · next hcond =>
      have ha' := List.mem_filter.mp ha
      exact ⟨linksOk_insert hP.1 ⟨a, ha'.1, rfl, by simpa using ha'.2⟩
        (inScopeId_spec _ _ hcond.2.2), nodup_insertLink hP.2⟩
  · exact hP

theorem predPassLinks_ok (gold pred : List NFact) (pv : String → Option Verdict)
    (links0 : List (String × String))
    (h0 : LinksOk gold pred links0 ∧ links0.Nodup) :
    LinksOk gold pred (predPassLinks gold pv (pred.filter (·.in_scope)) links0) ∧
    (predPassLinks gold pv (pred.filter (·.in_scope)) links0).Nodup := by
  unfold predPassLinks
  refine foldl_inv (fun links => LinksOk gold pred links ∧ links.Nodup) _ _ _ h0 ?_
  intro s a ha hP
  dsimp only
  split
  · next hcond =>
      have ha' := List.mem_filter.mp ha
      exact ⟨linksOk_insert hP.1 (inScopeId_spec _ _ hcond.2.2)
        ⟨a, ha'.1, rfl, by simpa using ha'.2⟩, nodup_insertLink hP.2⟩
  · exact hP

theorem promotePass_ok (gold pred : List NFact) (pv : String → Option Verdict)
    (st0 : List (String × String) × List (String × String))
    (hkeys : st0.1.map (·.1) = (gold.filter (·.in_scope)).map (·.id))
    (h0 : LinksOk gold pred st0.2 ∧ st0.2.Nodup) :
    (promotePass pv (pred.filter (·.in_scope)) st0).1.map (·.1)
        = (gold.filter (·.in_scope)).map (·.id) ∧
    LinksOk gold pred (promotePass pv (pred.filter (·.in_scope)) st0).2 ∧
    (promotePass pv (pred.filter (·.in_scope)) st0).2.Nodup := by
  unfold promotePass
  refine foldl_inv
    (fun st : List (String × String) × List (String × String) =>
      st.1.map (·.1) = (gold.filter (·.in_scope)).map (·.id) ∧
      LinksOk gold pred st.2 ∧ st.2.Nodup)
    _ _ st0 ⟨hkeys, h0.1, h0.2⟩ ?_
  intro s a ha hP
  dsimp only
  split
  · next hcond =>
      refine ⟨by rw [setStat_fst]; exact hP.1, ?_, nodup_insertLink hP.2.2⟩
      have hkey : ((vMatched (pv a.id)).getD "") ∈
          (gold.filter (·.in_scope)).map (·.id) := by
        rw [← hP.1]; exact lookupStat_some_mem hcond.2.2
      obtain ⟨g, hg, hgid⟩ := List.mem_map.mp hkey
      have hg' := List.mem_filter.mp hg
      have ha' := List.mem_filter.mp ha
      exact linksOk_insert hP.2.1 ⟨g, hg'.1, hgid, by simpa using hg'.2⟩
        ⟨a, ha'.1, rfl, by simpa using ha'.2⟩
  · exact hP

theorem downgradePass_ok (gold pred : List NFact) (gv : String → Option Verdict)
    (predStat : List (String × String)) (scopedGold : List NFact)
    (st0 : List (String × String) × List (String × String))
    (h0 : LinksOk gold pred st0.2 ∧ st0.2.Nodup) :
    LinksOk gold pred (downgradePass gv predStat scopedGold st0).2 ∧
    (downgradePass gv predStat scopedGold st0).2.Nodup := by
  unfold downgradePass
  refine foldl_inv
    (fun st : List (String × String) × List (String × String) =>
      LinksOk gold pred st.2 ∧ st.2.Nodup)
    _ _ st0 h0 ?_
  intro s a _ hP
  dsimp only
  split
  · exact ⟨linksOk_erase hP.1, hP.2.erase _⟩
  · exact hP

theorem collapsePass_ok (gold pred : List NFact) (predIds : List String)
    (links : List (String × String))
    (h : LinksOk gold pred links ∧ links.Nodup) :
    LinksOk gold pred (collapsePass predIds links) ∧
    (collapsePass predIds links).Nodup :=
  ⟨linksOk_filter h.1, h.2.filter _⟩

theorem preCollapseLinks_ok (gold pred : List NFact)
    (gv pv : String → Option Verdict) :
    LinksOk gold pred (preCollapseLinks gold pred gv pv) ∧
    (preCollapseLinks gold pred gv pv).Nodup := by
  unfold preCollapseLinks
  exact downgradePass_ok gold pred gv _ _ _
    (promotePass_ok gold pred pv _
      (by simp [initStatuses, List.map_map])
      (predPassLinks_ok gold pred pv _ (goldPassLinks_ok gold pred gv))).2

theorem reconLinks_ok (gold pred : List NFact) (gv pv : String → Option Verdict) :
    LinksOk gold pred (reconLinks gold pred gv pv) ∧
    (reconLinks gold pred gv pv).Nodup := by
  unfold reconLinks
  exact collapsePass_ok gold pred _ _ (preCollapseLinks_ok gold pred gv pv)

theorem idIndex_isSome_of_mem {l : List String} {a : String} (h : a ∈ l) :
    ∃ n, idIndex l a = some n := by
  induction l with
  | nil => cases h
  | cons x xs ih =>
      by_cases hx : x = a
      · exact ⟨0, by simp [idIndex, hx]⟩
      · rcases List.mem_cons.mp h with rfl | hmem
        · exact absurd rfl hx
        · obtain ⟨n, hn⟩ := ih hmem
          exact ⟨n + 1, by simp [idIndex, hx, hn]⟩

theorem idIndex_inj {l : List String} (hN : l.Nodup) {a b : String}
    (ha : a ∈ l) (hb : b ∈ l) (h : idIndex l a = idIndex l b) : a = b := by
  induction l with
  | nil => cases ha
  | cons x xs ih =>
      by_cases hxa : x = a <;> by_cases hxb : x = b
      · exact hxa ▸ hxb
      · rcases List.mem_cons.mp hb with rfl | hmemb
        · exact absurd rfl hxb
        · obtain ⟨n, hn⟩ := idIndex_isSome_of_mem hmemb
          rw [show idIndex (x :: xs) a = some 0 by simp [idIndex, hxa]] at h
          rw [show idIndex (x :: xs) b = some (n + 1) by simp [idIndex, hxb, hn]] at h
          cases h
      · rcases List.mem_cons.mp ha with rfl | hmema
        · exact absurd rfl hxa
        · obtain ⟨n, hn⟩ := idIndex_isSome_of_mem hmema
          rw [show idIndex (x :: xs) b = some 0 by simp [idIndex, hxb]] at h
          rw [show idIndex (x :: xs) a = some (n + 1) by simp [idIndex, hxa, hn]] at h
          cases h
      · rcases List.mem_cons.mp ha with rfl | hmema
        · exact absurd rfl hxa
        rcases List.mem_cons.mp hb with rfl | hmemb
        · exact absurd rfl hxb
        refine ih (List.Nodup.of_cons hN) hmema hmemb ?_
        obtain ⟨n, hn⟩ := idIndex_isSome_of_mem hmema
        obtain ⟨m, hm⟩ := idIndex_isSome_of_mem hmemb
        rw [show idIndex (x :: xs) a = some (n + 1) by simp [idIndex, hxa, hn]] at h
        rw [show idIndex (x :: xs) b = some (m + 1) by simp [idIndex, hxb, hm]] at h
        rw [hn, hm]
        cases h
        rfl

theorem orderKey_inj {l : List String} (hN : l.Nodup) {a b : String}
    (ha : a ∈ l) (hb : b ∈ l) (h : orderKey l a = orderKey l b) : a = b := by
  obtain ⟨n, hn⟩ := idIndex_isSome_of_mem ha
  obtain ⟨m, hm⟩ := idIndex_isSome_of_mem hb
  refine idIndex_inj hN ha hb ?_
  unfold orderKey at h
  rw [hn, hm] at h ⊢
  simpa using h

/-- After the fan-out collapse, each gold id carries at most one link: two
surviving links with the same gold id and predicted ids belonging to the
duplicate-free predicted id list are equal. -/
theorem collapsePass_keyUnique (predIds : List String)
    (links : List (String × String)) (hN : predIds.Nodup) :
    ∀ x ∈ collapsePass predIds links, ∀ y ∈ collapsePass predIds links,
      x.2 ∈ predIds → y.2 ∈ predIds → x.1 = y.1 → x = y := by
  intro x hx y hy hxp hyp hxy
  have hx' := List.mem_filter.mp hx
  have hy' := List.mem_filter.mp hy
  have hcx := of_decide_eq_true hx'.2
  have hcy := of_decide_eq_true hy'.2
  have h1 := hcx y hy'.1 hxy.symm
  have h2 := hcy x hx'.1 hxy
  have : x.2 = y.2 := orderKey_inj hN hxp hyp (le_antisymm h1 h2)
  exact Prod.ext hxy this

/-- A filter over a duplicate-free list whose predicate is satisfied by at
most one value has at most one element. -/
theorem filter_length_le_one {l : List String} (hN : l.Nodup)
    {p : String → Bool}
    (huniq : ∀ a ∈ l, ∀ b ∈ l, p a = true → p b = true → a = b) :
    (l.filter p).length ≤ 1 := by
  induction l with
  | nil => simp
  | cons x xs ih =>
      have hN' := List.Nodup.of_cons hN
      by_cases hx : p x = true
      · have hempty : xs.filter p = [] := by
          rw [List.filter_eq_nil_iff]
          intro b hb hpb
          have : x = b := huniq x (List.mem_cons_self x xs) b
            (List.mem_cons_of_mem _ hb) hx hpb
          exact (List.nodup_cons.mp hN).1 (this ▸ hb)
        simp [hx, hempty]
      · have : (x :: xs).filter p = xs.filter p := by
          simp [List.filter_cons, hx]
        rw [this]
        exact ih hN' (fun a ha b hb hpa hpb =>
          huniq a (List.mem_cons_of_mem _ ha) b (List.mem_cons_of_mem _ hb) hpa hpb)

/-- C2 (amended): after reconciliation every gold fact has at most one
matched id.  (The predicted side does not share this bound — see the
counterexample — because the fan-out collapse only runs gold→predicted.) -/
theorem gold_matched_ids_le_one (gold pred : List NFact)
    (gv pv : String → Option Verdict) (hp : (pred.map (·.id)).Nodup) :
    ∀ f ∈ (reconcile gold pred gv pv).gold_facts, f.matched_ids.length ≤ 1 := by
  intro f hf
  obtain ⟨g, _, rfl⟩ := List.mem_map.mp hf
  by_cases hs : g.in_scope
  · simp only [finalizeGold, hs, if_true]
    refine filter_length_le_one hp ?_
    intro a ha b hb hpa hpb
    have hma := of_decide_eq_true hpa
    have hmb := of_decide_eq_true hpb
    unfold reconLinks at hma hmb
    have := collapsePass_keyUnique (pred.map (·.id)) (preCollapseLinks gold pred gv pv)
      hp (g.id, a) hma (g.id, b) hmb ha hb rfl
    exact congrArg Prod.snd this
  · simp [finalizeGold, hs]

theorem gold_matched_ids_le_one_witness :
    ((cPred.map (·.id)).Nodup ∧
      (⟨"g1", "asset", true, ["p1"], "TP"⟩ : LabeledFact)
        ∈ (reconcile cGold cPred cGv cPv).gold_facts) ∧
    (⟨"g1", "asset", true, ["p1"], "TP"⟩ : LabeledFact).matched_ids.length ≤ 1 :=
  ⟨⟨by decide, by decide⟩,
   gold_matched_ids_le_one cGold cPred cGv cPv (by decide)
     ⟨"g1", "asset", true, ["p1"], "TP"⟩ (by decide)⟩

theorem finalizeGold_preserves (gold pred : List NFact)
    (links : List (String × String)) :
    ∀ q ∈ gold, ∃ q' ∈ finalizeGold gold pred links,
      q'.id = q.id ∧ q'.in_scope = q.in_scope := by
  intro q hq
  refine ⟨_, List.mem_map_of_mem _ hq, ?_⟩
  by_cases hs : q.in_scope <;> simp [hs]

theorem finalizePred_preserves (gold pred : List NFact)
    (links : List (String × String)) :
    ∀ q ∈ pred, ∃ q' ∈ finalizePred gold pred links,
      q'.id = q.id ∧ q'.in_scope = q.in_scope := by
  intro q hq
  refine ⟨_, List.mem_map_of_mem _ hq, ?_⟩
  by_cases hs : q.in_scope <;> simp [hs]

/-- C4: out-of-scope facts always come out of reconciliation as `FN` (gold)
resp. `FP` (predicted) with empty `matched_ids`, whatever the verdicts were;
and every id in any fact's `matched_ids` references a fact on the opposite
side of the result that exists and is in scope. -/
theorem out_of_scope_forced_and_links_in_scope (gold pred : List NFact)
    (gv pv : String → Option Verdict) :
    (∀ f ∈ (reconcile gold pred gv pv).gold_facts, f.in_scope = false →
        f.status = "FN" ∧ f.matched_ids = []) ∧
    (∀ f ∈ (reconcile gold pred gv pv).predicted_facts, f.in_scope = false →
        f.status = "FP" ∧ f.matched_ids = []) ∧
    (∀ f ∈ (reconcile gold pred gv pv).gold_facts, ∀ p ∈ f.matched_ids,
        ∃ q ∈ (reconcile gold pred gv pv).predicted_facts,
          q.id = p ∧ q.in_scope = true) ∧
    (∀ f ∈ (reconcile gold pred gv pv).predicted_facts, ∀ g ∈ f.matched_ids,
        ∃ q ∈ (reconcile gold pred gv pv).gold_facts,
          q.id = g ∧ q.in_scope = true) := by
  have hok := (reconLinks_ok gold pred gv pv).1
  refine ⟨?_, ?_, ?_, ?_⟩
  · intro f hf hfs
    obtain ⟨g, _, rfl⟩ := List.mem_map.mp hf
    by_cases hs : g.in_scope
    · simp [hs] at hfs
    · simp [hs]
  · intro f hf hfs
    obtain ⟨p, _, rfl⟩ := List.mem_map.mp hf
    by_cases hs : p.in_scope
    · simp [hs] at hfs
    · simp [hs]
  · intro f hf p hp
    obtain ⟨g, _, rfl⟩ := List.mem_map.mp hf
    by_cases hs : g.in_scope
    · simp only [hs, if_true] at hp
      have hp' := List.mem_filter.mp hp
      have hlink := of_decide_eq_true hp'.2
      obtain ⟨_, ⟨q, hq, hqid, hqsc⟩⟩ := hok _ hlink
      obtain ⟨q', hq', hq'id, hq'sc⟩ := finalizePred_preserves gold pred
        (reconLinks gold pred gv pv) q hq
      exact ⟨q', hq', by rw [hq'id, hqid], by rw [hq'sc, hqsc]⟩
    · simp [hs] at hp
  · intro f hf g hg
    obtain ⟨p, _, rfl⟩ := List.mem_map.mp hf
    by_cases hs : p.in_scope
    · simp only [hs, if_true] at hg
      have hg' := List.mem_filter.mp hg
      have hlink := of_decide_eq_true hg'.2
      obtain ⟨⟨q, hq, hqid, hqsc⟩, _⟩ := hok _ hlink
      obtain ⟨q', hq', hq'id, hq'sc⟩ := finalizeGold_preserves gold pred
        (reconLinks gold pred gv pv) q hq
      exact ⟨q', hq', by rw [hq'id, hqid], by rw [hq'sc, hqsc]⟩
    · simp [hs] at hg

theorem out_of_scope_forced_witness :
    ((⟨"g9", "debt", false, [], "FN"⟩ : LabeledFact)
        ∈ (reconcile [⟨"g9", "debt", false⟩] [] (fun _ => none) (fun _ => none)).gold_facts ∧
      (⟨"g9", "debt", false, [], "FN"⟩ : LabeledFact).in_scope = false) ∧
    ((⟨"g9", "debt", false, [], "FN"⟩ : LabeledFact).status = "FN" ∧
      (⟨"g9", "debt", false, [], "FN"⟩ : LabeledFact).matched_ids = []) :=
  ⟨⟨by decide, by decide⟩,
   (out_of_scope_forced_and_links_in_scope [⟨"g9", "debt", false⟩] []
       (fun _ => none) (fun _ => none)).1
     ⟨"g9", "debt", false, [], "FN"⟩ (by decide) (by decide)⟩

/-- The gold-side TP count of a finalized result counts exactly the gold
facts that are in scope and appear as the gold end of some surviving link. -/
theorem count_tp_gold (gold pred : List NFact) (L : List (String × String))
    (hL : LinksOk gold pred L) :
    count_status (finalizeGold gold pred L) "TP"
      = gold.countP (fun f => f.in_scope && (L.map Prod.fst).contains f.id) := by
  unfold count_status finalizeGold
  rw [List.countP_map]
  refine List.countP_congr ?_
  intro f _
  by_cases hs : f.in_scope
  · by_cases hc : f.id ∈ L.map Prod.fst
    · obtain ⟨x, hx, hx1⟩ := List.mem_map.mp hc
      obtain ⟨-, q, hq, hqid, -⟩ := hL x hx
      have hpmem : x.2 ∈ pred.map (·.id) := List.mem_map.mpr ⟨q, hq, hqid⟩
      have hfl : (f.id, x.2) ∈ L := by
        have hxe : x = (f.id, x.2) := Prod.ext hx1 rfl
        rwa [hxe] at hx
      have hms : x.2 ∈ (pred.map (·.id)).filter (fun p => decide ((f.id, p) ∈ L)) :=
        List.mem_filter.mpr ⟨hpmem, decide_eq_true hfl⟩
      have hE : ((pred.map (·.id)).filter
          (fun p => decide ((f.id, p) ∈ L))).isEmpty = false := by
        simp [List.isEmpty_iff, List.ne_nil_of_mem hms]
      simp [Function.comp, hs, hE, hc]
    · have hempty : (pred.map (·.id)).filter (fun p => decide ((f.id, p) ∈ L)) = [] := by
        rw [List.filter_eq_nil_iff]
        intro p _ hdec
        exact hc (List.mem_map.mpr ⟨(f.id, p), of_decide_eq_true hdec, rfl⟩)
      simp [Function.comp, hs, hempty, hc]
  · simp [Function.comp, hs]

/-- The predicted-side TP count of a finalized result counts exactly the
predicted facts that are in scope and appear as the predicted end of some
surviving link. -/
theorem count_tp_pred (gold pred : List NFact) (L : List (String × String))
    (hL : LinksOk gold pred L) :
    count_status (finalizePred gold pred L) "TP"
      = pred.countP (fun f => f.in_scope && (L.map Prod.snd).contains f.id) := by
  unfold count_status finalizePred
  rw [List.countP_map]
  refine List.countP_congr ?_
  intro f _
  by_cases hs : f.in_scope
  · by_cases hc : f.id ∈ L.map Prod.snd
    · obtain ⟨x, hx, hx2⟩ := List.mem_map.mp hc
      obtain ⟨⟨q, hq, hqid, -⟩, -⟩ := hL x hx
      have hgmem : x.1 ∈ gold.map (·.id) := List.mem_map.mpr ⟨q, hq, hqid⟩
      have hfl : (x.1, f.id) ∈ L := by
        have hxe : x = (x.1, f.id) := Prod.ext rfl hx2
        rwa [hxe] at hx
      have hms : x.1 ∈ (gold.map (·.id)).filter (fun g => decide ((g, f.id) ∈ L)) :=
        List.mem_filter.mpr ⟨hgmem, decide_eq_true hfl⟩
      have hE : ((gold.map (·.id)).filter
          (fun g => decide ((g, f.id) ∈ L))).isEmpty = false := by
        simp [List.isEmpty_iff, List.ne_nil_of_mem hms]
      simp [Function.comp, hs, hE, hc]
    · have hempty : (gold.map (·.id)).filter (fun g => decide ((g, f.id) ∈ L)) = [] := by
        rw [List.filter_eq_nil_iff]
        intro g _ hdec
        exact hc (List.mem_map.mpr ⟨(g, f.id), of_decide_eq_true hdec, rfl⟩)
      simp [Function.comp, hs, hempty, hc]
  · simp [Function.comp, hs]

/-- Counting facts of a duplicate-free-id list whose id lies in a
duplicate-free key list: if every key is the id of some in-scope fact of the
list, the count is exactly the number of keys. -/
theorem countP_scope_contains_eq (l : List NFact) (K : List String)
    (hl : (l.map (·.id)).Nodup) (hK : K.Nodup)
    (hmem : ∀ k ∈ K, ∃ f ∈ l, f.id = k ∧ f.in_scope = true) :
    l.countP (fun f => f.in_scope && K.contains f.id) = K.length := by
  induction l generalizing K with
  | nil =>
      cases K with
      | nil => simp
      | cons k ks =>
          obtain ⟨f, hf, -⟩ := hmem k (List.mem_cons_self k ks)
          cases hf
  | cons f l' ih =>
      have hl2 : (f.id :: l'.map (·.id)).Nodup := by simpa using hl
      have hl' : (l'.map (·.id)).Nodup := (List.nodup_cons.mp hl2).2
      have hfid : f.id ∉ l'.map (·.id) := (List.nodup_cons.mp hl2).1
      by_cases hcount : (f.in_scope && K.contains f.id) = true
      · have hsplit : f.in_scope = true ∧ f.id ∈ K := by simpa using hcount
        have hfk : f.id ∈ K := hsplit.2
        rw [List.countP_cons]
        simp only [hcount, if_true]
        have hcongr : l'.countP (fun g => g.in_scope && K.contains g.id)
            = l'.countP (fun g => g.in_scope && (K.erase f.id).contains g.id) := by
          refine List.countP_congr ?_
          intro g hg
          have hgne : g.id ≠ f.id := fun h => hfid (h ▸ List.mem_map_of_mem _ hg)
          by_cases hgK : g.id ∈ K
          · have hmem2 : g.id ∈ K.erase f.id := (List.mem_erase_of_ne hgne).mpr hgK
            simp [List.elem_eq_true_of_mem hgK, List.elem_eq_true_of_mem hmem2]
            exact fun _ => ⟨fun _ => hmem2, fun _ => hgK⟩
          · have : g.id ∉ K.erase f.id := fun h =>
              hgK (List.mem_of_mem_erase h)
            simp only [Bool.and_eq_true]
            constructor
            · rintro ⟨h1, h2⟩; exact absurd (List.mem_of_elem_eq_true h2) hgK
            · rintro ⟨h1, h2⟩; exact absurd (List.mem_of_elem_eq_true h2) this
        rw [hcongr, ih (K.erase f.id) hl' (hK.erase _) ?_]
        · rw [List.length_erase_of_mem hfk]
          have hKpos : 1 ≤ K.length := List.length_pos.mpr (List.ne_nil_of_mem hfk)
          omega
        · intro k hk
          have hkK : k ∈ K := List.mem_of_mem_erase hk
          obtain ⟨f', hf', hid, hsc⟩ := hmem k hkK
          have hkne : k ≠ f.id := fun h => (hK.not_mem_erase) (h ▸ hk)
          rcases List.mem_cons.mp hf' with rfl | hmem'
          · exact absurd hid.symm (by simpa using hkne)
          · exact ⟨f', hmem', hid, hsc⟩
      · rw [List.countP_cons]
        simp only [hcount, if_false]
        refine ih K hl' hK ?_
        intro k hk
        obtain ⟨f', hf', hid, hsc⟩ := hmem k hk
        rcases List.mem_cons.mp hf' with rfl | hmem'
        · exact absurd (by simp [hsc, hid ▸ hk]) hcount
        · exact ⟨f', hmem', hid, hsc⟩

/-- Counting facts of a duplicate-free-id list whose id lies in an arbitrary
key list never exceeds the number of keys. -/
theorem countP_scope_contains_le (l : List NFact) (K : List String)
    (hl : (l.map (·.id)).Nodup) :
    l.countP (fun f => f.in_scope && K.contains f.id) ≤ K.length := by
  induction l generalizing K with
  | nil => simp
  | cons f l' ih =>
      have hl2 : (f.id :: l'.map (·.id)).Nodup := by simpa using hl
      have hl' : (l'.map (·.id)).Nodup := (List.nodup_cons.mp hl2).2
      have hfid : f.id ∉ l'.map (·.id) := (List.nodup_cons.mp hl2).1
      by_cases hcount : (f.in_scope && K.contains f.id) = true
      · have hsplit : f.in_scope = true ∧ f.id ∈ K := by simpa using hcount
        have hfk : f.id ∈ K := hsplit.2
        rw [List.countP_cons]
        simp only [hcount, if_true]
        have hcongr : l'.countP (fun g => g.in_scope && K.contains g.id)
            = l'.countP (fun g => g.in_scope && (K.erase f.id).contains g.id) := by
          refine List.countP_congr ?_
          intro g hg
          have hgne : g.id ≠ f.id := fun h => hfid (h ▸ List.mem_map_of_mem _ hg)
          by_cases hgK : g.id ∈ K
          · have hmem2 : g.id ∈ K.erase f.id := (List.mem_erase_of_ne hgne).mpr hgK
            simp [List.elem_eq_true_of_mem hgK, List.elem_eq_true_of_mem hmem2]
            exact fun _ => ⟨fun _ => hmem2, fun _ => hgK⟩
          · have : g.id ∉ K.erase f.id := fun h =>
              hgK (List.mem_of_mem_erase h)
            simp only [Bool.and_eq_true]
            constructor
            · rintro ⟨h1, h2⟩; exact absurd (List.mem_of_elem_eq_true h2) hgK
            · rintro ⟨h1, h2⟩; exact absurd (List.mem_of_elem_eq_true h2) this
        rw [hcongr]
        have hle := ih (K.erase f.id) hl'
        rw [List.length_erase_of_mem hfk] at hle
        have hKpos : 1 ≤ K.length := List.length_pos.mpr (List.ne_nil_of_mem hfk)
        omega
      · rw [List.countP_cons]
        simp only [hcount, if_false]
        exact ih K hl'

/-- After the collapse, the gold ends of the surviving links are pairwise
distinct. -/
theorem nodup_fst_reconLinks (gold pred : List NFact)
    (gv pv : String → Option Verdict) (hp : (pred.map (·.id)).Nodup) :
    ((reconLinks gold pred gv pv).map Prod.fst).Nodup := by
  have hok := reconLinks_ok gold pred gv pv
  refine List.Nodup.map_on ?_ hok.2
  intro x hx y hy hxy
  have hxp : x.2 ∈ pred.map (·.id) := by
    obtain ⟨-, q, hq, hqid, -⟩ := hok.1 x hx
    exact List.mem_map.mpr ⟨q, hq, hqid⟩
  have hyp : y.2 ∈ pred.map (·.id) := by
    obtain ⟨-, q, hq, hqid, -⟩ := hok.1 y hy
    exact List.mem_map.mpr ⟨q, hq, hqid⟩
  unfold reconLinks at hx hy
  exact collapsePass_keyUnique (pred.map (·.id)) (preCollapseLinks gold pred gv pv)
    hp x hx y hy hxp hyp hxy

/-- C1 (amended): the two TP counts need not agree (see the counterexample);
what always holds is the inequality — the predicted-side TP count of
`compute_confusion_matrix` is at most the gold-side `tp_count` of
`compute_metrics`, with equality exactly when no predicted fact stays linked
to several gold facts. -/
theorem gold_tp_ge_predicted_tp (gold pred : List NFact)
    (gv pv : String → Option Verdict)
    (hg : (gold.map (·.id)).Nodup) (hp : (pred.map (·.id)).Nodup) :
    (compute_confusion_matrix (reconcile gold pred gv pv)).TP
      ≤ (compute_metrics (reconcile gold pred gv pv)).tp_count := by
  have hok := reconLinks_ok gold pred gv pv
  show count_status (finalizePred gold pred (reconLinks gold pred gv pv)) "TP"
      ≤ count_status (finalizeGold gold pred (reconLinks gold pred gv pv)) "TP"
  rw [count_tp_pred gold pred _ hok.1, count_tp_gold gold pred _ hok.1]
  have h1 : gold.countP
      (fun f => f.in_scope && ((reconLinks gold pred gv pv).map Prod.fst).contains f.id)
      = ((reconLinks gold pred gv pv).map Prod.fst).length := by
    refine countP_scope_contains_eq gold _ hg (nodup_fst_reconLinks gold pred gv pv hp) ?_
    intro k hk
    obtain ⟨x, hx, hx1⟩ := List.mem_map.mp hk
    obtain ⟨⟨q, hq, hqid, hqsc⟩, -⟩ := hok.1 x hx
    exact ⟨q, hq, hx1 ▸ hqid, hqsc⟩
  have h2 : pred.countP
      (fun f => f.in_scope && ((reconLinks gold pred gv pv).map Prod.snd).contains f.id)
      ≤ ((reconLinks gold pred gv pv).map Prod.snd).length :=
    countP_scope_contains_le pred _ hp
  rw [h1]
  simpa using h2

theorem gold_tp_ge_predicted_tp_witness :
    ((cGold.map (·.id)).Nodup ∧ (cPred.map (·.id)).Nodup) ∧
    (compute_confusion_matrix (reconcile cGold cPred cGv cPv)).TP
      ≤ (compute_metrics (reconcile cGold cPred cGv cPv)).tp_count :=
  ⟨⟨by decide, by decide⟩,
   gold_tp_ge_predicted_tp cGold cPred cGv cPv (by decide) (by decide)⟩

/-! ## Schema flattening and stability (`schema_utils.py`, `llm_service.py`)

JSON-like values as handled by `flatten_dict_keys`: Python dicts are
association lists (Python dict keys are unique and ordered), numbers are
modelled as integers (no claim depends on float-valued leaves — only on key
paths). -/

inductive Json where
  | null
  | bool (b : Bool)
  | num (n : Int)
  | str (s : String)
  | arr (items : List Json)
  | obj (fields : List (String × Json))

mutual

/-- `flatten_dict_keys` from `schema_utils.py` with the default separator
`"."`: the set of leaf key paths of a nested dict/list value.  A non-empty
dict value recurses with the dotted key; a list value recurses each item
under the `[]`-suffixed key (an empty list contributes the suffixed key
itself); anything else — scalars and empty dicts — is a leaf. -/
def flatten_dict_keys : Json → String → Finset String
  | .obj kvs, parent_key => flattenFields kvs parent_key
  | .arr items, parent_key => flattenItems items (parent_key ++ "[]")
  | _, parent_key => if parent_key = "" then ∅ else {parent_key}

/-- The `isinstance(d, dict)` branch of `flatten_dict_keys`, one key-value
pair at a time. -/
def flattenFields : List (String × Json) → String → Finset String
  | [], _ => ∅
  | (k, v) :: rest, parent_key =>
      let new_key := if parent_key = "" then k else parent_key ++ "." ++ k
      (match v with
       | .obj [] => {new_key}
       | .obj kvs => flattenFields kvs new_key
       | .arr [] => {new_key ++ "[]"}
       | .arr items => flattenItems items (new_key ++ "[]")
       | _ => {new_key}) ∪ flattenFields rest parent_key

/-- The `isinstance(d, list)` branch of `flatten_dict_keys`: each item is
flattened under the shared list path. -/
def flattenItems : List Json → String → Finset String
  | [], _ => ∅
  | item :: rest, parent_key =>
      flatten_dict_keys item parent_key ∪ flattenItems rest parent_key

end

/-- `calculate_schema_stability` from `llm_service.py`: flatten every
extraction to its leaf-path set, drop the empty sets, and return
`|intersection| / |union|` of the remaining sets, `0.0` when nothing
remains. -/
def calculate_schema_stability (all_extracted_data : List Json) : ℚ :=
  if all_extracted_data.isEmpty = true then 0
  else
    match (all_extracted_data.map (fun d => flatten_dict_keys d "")).filter
        (fun fs => decide (fs ≠ ∅)) with
    | [] => 0
    | s :: rest =>
        let common_fields := rest.foldl (· ∩ ·) s
        let total_unique_fields := rest.foldl (· ∪ ·) s
        if total_unique_fields = ∅ then 0
        else (common_fields.card : ℚ) / (total_unique_fields.card : ℚ)

theorem subset_foldl_union (rest : List (Finset String)) :
    ∀ s : Finset String, s ⊆ rest.foldl (· ∪ ·) s := by
  induction rest with
  | nil => intro s; exact Finset.Subset.refl s
  | cons r t ih => intro s; exact Finset.subset_union_left.trans (ih (s ∪ r))

theorem stability_cons (datas : List Json) (s : Finset String)
    (rest : List (Finset String))
    (h : (datas.map (fun d => flatten_dict_keys d "")).filter
        (fun fs => decide (fs ≠ ∅)) = s :: rest) :
    calculate_schema_stability datas
      = ((rest.foldl (· ∩ ·) s).card : ℚ) / ((rest.foldl (· ∪ ·) s).card : ℚ) := by
  have hne : datas.isEmpty = false := by
    cases datas with
    | nil => simp at h
    | cons _ _ => rfl
  have hs : s ∈ (datas.map (fun d => flatten_dict_keys d "")).filter
      (fun fs => decide (fs ≠ ∅)) := by
    rw [h]; exact List.mem_cons_self _ _
  have hsne : s ≠ ∅ := of_decide_eq_true (List.mem_filter.mp hs).2
  have htot : rest.foldl (· ∪ ·) s ≠ ∅ := by
    intro h0
    exact hsne (Finset.subset_empty.mp (h0 ▸ subset_foldl_union rest s))
  unfold calculate_schema_stability
  rw [if_neg (by simp [hne])]
  rw [h]
  dsimp only
  rw [if_neg htot]

theorem stability_nil (datas : List Json)
    (h : (datas.map (fun d => flatten_dict_keys d "")).filter
        (fun fs => decide (fs ≠ ∅)) = []) :
    calculate_schema_stability datas = 0 := by
  unfold calculate_schema_stability
  by_cases hD : datas.isEmpty = true
  · rw [if_pos hD]
  · rw [if_neg hD, h]

/-- First extraction of Scenario D: fields `name`, `age`, `city`. -/
def exD1 : Json := .obj [("name", .str "Alice"), ("age", .num 30), ("city", .str "Oslo")]

/-- Second extraction of Scenario D: fields `name`, `age`, `country`. -/
def exD2 : Json := .obj [("name", .str "Bob"), ("age", .num 25), ("country", .str "NO")]

/-- Third extraction of Scenario D: fields `name`, `age`, `city`. -/
def exD3 : Json := .obj [("name", .str "Eve"), ("age", .num 41), ("city", .str "Lyon")]

/-- C9: `calculate_schema_stability` flattens each output to its leaf-path
set, discards the empty sets, and returns `|∩|/|∪|` of the remaining sets —
`0` when none remains; on Scenario D's field sets
`{name,age,city}, {name,age,country}, {name,age,city}` it returns `1/2`. -/
theorem schema_stability_spec :
    (∀ (datas : List Json) (s : Finset String) (rest : List (Finset String)),
      (datas.map (fun d => flatten_dict_keys d "")).filter
          (fun fs => decide (fs ≠ ∅)) = s :: rest →
      calculate_schema_stability datas
        = ((rest.foldl (· ∩ ·) s).card : ℚ) / ((rest.foldl (· ∪ ·) s).card : ℚ)) ∧
    (∀ datas : List Json,
      (datas.map (fun d => flatten_dict_keys d "")).filter
          (fun fs => decide (fs ≠ ∅)) = [] →
      calculate_schema_stability datas = 0) ∧
    calculate_schema_stability [exD1, exD2, exD3] = 1 / 2 := by
  refine ⟨stability_cons, stability_nil, ?_⟩
  have hfilter : ([exD1, exD2, exD3].map (fun d => flatten_dict_keys d "")).filter
      (fun fs => decide (fs ≠ ∅))
      = [{"name", "age", "city"}, {"name", "age", "country"}, {"name", "age", "city"}] := by
    decide
  rw [stability_cons _ _ _ hfilter]
  have h1 : (([({"name", "age", "country"} : Finset String),
      {"name", "age", "city"}]).foldl (· ∩ ·) {"name", "age", "city"}).card = 2 := by
    decide
  have h2 : (([({"name", "age", "country"} : Finset String),
      {"name", "age", "city"}]).foldl (· ∪ ·) {"name", "age", "city"}).card = 4 := by
    decide
  rw [h1, h2]
  norm_num

theorem schema_stability_spec_witness :
    (([exD1, exD2, exD3].map (fun d => flatten_dict_keys d "")).filter
        (fun fs => decide (fs ≠ ∅))
      = [{"name", "age", "city"}, {"name", "age", "country"},
         {"name", "age", "city"}]) ∧
    calculate_schema_stability [exD1, exD2, exD3]
      = ((([({"name", "age", "country"} : Finset String),
            {"name", "age", "city"}]).foldl (· ∩ ·) {"name", "age", "city"}).card : ℚ)
        / ((([({"name", "age", "country"} : Finset String),
            {"name", "age", "city"}]).foldl (· ∪ ·) {"name", "age", "city"}).card : ℚ) :=
  ⟨by decide,
   schema_stability_spec.1 [exD1, exD2, exD3] {"name", "age", "city"}
     [{"name", "age", "country"}, {"name", "age", "city"}] (by decide)⟩

/-! ## Input-shape normalization (`judge_service.py` lines 8-106)

`_extract_fact_array` (gold side) and `_expand_predicted_facts` (predicted
side) accept raw JSON-shaped fact collections.  Python's `str()` and
`json.dumps` (used only to synthesize ids and descriptions) are modelled
below; escaping of quotes inside `repr`-rendered composite ids is not
modelled — no claim depends on the text of a composite id. -/

/-- Python truthiness of a JSON value. -/
def truthyJ : Json → Bool
  | .null => false
  | .bool b => b
  | .num n => !(n == 0)
  | .str s => !(s == "")
  | .arr items => !items.isEmpty
  | .obj kvs => !kvs.isEmpty

/-- Dict lookup `d.get(k)`; keys of a parsed JSON object are unique, so
first-match is the dict lookup. -/
def jlookup (kvs : List (String × Json)) (k : String) : Option Json :=
  (kvs.find? (fun p => p.1 == k)).map (·.2)

/-- Dict assignment `d[k] = v`: update the binding in place if the key
exists (keeping its position, as Python dicts do), else append. -/
def setKey (kvs : List (String × Json)) (k : String) (v : Json) :
    List (String × Json) :=
  if kvs.any (fun p => p.1 == k) then
    kvs.map (fun p => if p.1 = k then (p.1, v) else p)
  else kvs ++ [(k, v)]

/-- Hexadecimal digit, for `\uXXXX` escapes. -/
def hexDigit (n : Nat) : Char :=
  if n < 10 then Char.ofNat (48 + n) else Char.ofNat (87 + n)

/-- Four-digit hexadecimal rendering of a code point below `0x10000`. -/
def hex4 (n : Nat) : String :=
  String.mk [hexDigit ((n / 4096) % 16), hexDigit ((n / 256) % 16),
    hexDigit ((n / 16) % 16), hexDigit (n % 16)]

/-- JSON string-character escaping as `json.dumps` performs it (with
`ensure_ascii=False`: non-ASCII characters pass through). -/
def escapeJson (c : Char) : String :=
  if c = '"' then "\\\""
  else if c = '\\' then "\\\\"
  else if c = '\n' then "\\n"
  else if c = '\t' then "\\t"
  else if c = '\r' then "\\r"
  else if c.toNat < 32 then "\\u" ++ hex4 c.toNat
  else c.toString

/-- A JSON string literal as `json.dumps` renders it. -/
def dumpStr (s : String) : String :=
  "\"" ++ String.join (s.data.map escapeJson) ++ "\""

mutual

/-- `json.dumps(value, ensure_ascii=False)` with the default separators. -/
def jsonDumps : Json → String
  | .null => "null"
  | .bool true => "true"
  | .bool false => "false"
  | .num n => toString n
  | .str s => dumpStr s
  | .arr items => "[" ++ dumpArr items ++ "]"
  | .obj kvs => "\x7b" ++ dumpObj kvs ++ "\x7d"

def dumpArr : List Json → String
  | [] => ""
  | [x] => jsonDumps x
  | x :: rest => jsonDumps x ++ ", " ++ dumpArr rest

def dumpObj : List (String × Json) → String
  | [] => ""
  | [(k, v)] => dumpStr k ++ ": " ++ jsonDumps v
  | (k, v) :: rest => dumpStr k ++ ": " ++ jsonDumps v ++ ", " ++ dumpObj rest

end

mutual

/-- Python `repr` of a JSON-shaped value (used by `str` on containers). -/
def pyRepr : Json → String
  | .null => "None"
  | .bool true => "True"
  | .bool false => "False"
  | .num n => toString n
  | .str s => "'" ++ s ++ "'"
  | .arr items => "[" ++ reprArr items ++ "]"
  | .obj kvs => "\x7b" ++ reprObj kvs ++ "\x7d"

def reprArr : List Json → String
  | [] => ""
  | [x] => pyRepr x
  | x :: rest => pyRepr x ++ ", " ++ reprArr rest

def reprObj : List (String × Json) → String
  | [] => ""
  | [(k, v)] => "'" ++ k ++ "': " ++ pyRepr v
  | (k, v) :: rest => "'" ++ k ++ "': " ++ pyRepr v ++ ", " ++ reprObj rest

end

/-- Python `str()` of a JSON-shaped value: a string stays itself, anything
else renders via `repr`. -/
def pyStr : Json → String
  | .str s => s
  | v => pyRepr v

/-- The static alias table `ENTITY_TYPE_ALIASES`. -/
def ENTITY_TYPE_ALIASES : List (String × String) :=
  [("asset", "asset"), ("assets", "asset"), ("property", "property"),
   ("properties", "property"), ("client", "client"), ("clients", "client"),
   ("debt", "debt"), ("debts", "debt"), ("liability", "debt"),
   ("liabilities", "debt"), ("liability_except_mortgage", "debt"),
   ("income", "income"), ("incomes", "income"), ("expense", "expense"),
   ("expenses", "expense"), ("pension", "pension"), ("pensions", "pension"),
   ("account", "account"), ("accounts", "account"),
   ("saving_investment", "asset"), ("savings", "asset"),
   ("investment_account", "account"), ("protection_policy", "asset"),
   ("position", "position"), ("positions", "position")]

/-- Python `str.lower()`, character by character (ASCII case mapping; the
alias table and category keys are ASCII). -/
def pyLower (s : String) : String := String.mk (s.data.map Char.toLower)

/-- Python `str.strip()`: drop leading and trailing whitespace. -/
def pyStrip (s : String) : String :=
  String.mk (((s.data.dropWhile Char.isWhitespace).reverse.dropWhile
    Char.isWhitespace).reverse)

/-- `_normalize_entity_type`: absent or empty input yields `"unknown"`;
otherwise strip, lower-case, and map through the alias table, unmatched
values passing through. -/
def normalize_entity_type (entity_type : Option String) : String :=
  match entity_type with
  | none => "unknown"
  | some s =>
      if s = "" then "unknown"
      else
        let normalized := pyLower (pyStrip s)
        match ENTITY_TYPE_ALIASES.find? (fun p => p.1 == normalized) with
        | some p => p.2
        | none => normalized

/-- Python `a or b` on an optional dict entry: the entry's value if present
and truthy, else `b`. -/
def orJ (a : Option Json) (b : Json) : Json :=
  match a with
  | some v => if truthyJ v then v else b
  | none => b

/-- `_extract_fact_array` (gold side): `None` yields `[]`; a list passes
through; a dict is accepted only through a list-valued `"facts"` key or the
fallback key; everything else is a structural error.  A mapping from
category to list is NOT flattened here. -/
def extract_fact_array : Json → String → Except String (List Json)
  | .null, _ => .ok []
  | .arr l, _ => .ok l
  | .obj kvs, fallback_key =>
      (match jlookup kvs "facts" with
       | some (.arr l) => .ok l
       | _ =>
           match jlookup kvs fallback_key with
           | some (.arr l) => .ok l
           | _ => .error "Facts must be provided as a list of fact objects.")
  | _, _ => .error "Facts must be provided as a list of fact objects."

/-- The description-defaulting block of `_expand_predicted_facts`: keep a
truthy description; else pull `static.description.value` when truthy; else
serialize the remaining fields. -/
def describeFact (fact : List (String × Json)) : List (String × Json) :=
  if truthyJ ((jlookup fact "description").getD .null) then fact
  else
    let fact1 :=
      match jlookup fact "static" with
      | some (.obj static_block) =>
          (match jlookup static_block "description" with
           | some (.obj static_desc) =>
               match jlookup static_desc "value" with
               | some v => if truthyJ v then setKey fact "description" v else fact
               | none => fact
           | _ => fact)
      | _ => fact
    if truthyJ ((jlookup fact1 "description").getD .null) then fact1
    else
      setKey fact1 "description"
        (.str (jsonDumps (.obj (fact1.filter (fun p => !(p.1 == "description"))))))

/-- Processing of one dict entry of a predicted fact collection: derive the
id through the `id`/`position_id`/`asset_id`/`account_id`/`client_id` chain
with `"{key}_{idx}"` as the default, derive the type through
`fact_type`/`position_type` with the category key as the default and
normalize it, then default the description.  A non-string derived type makes
the Python code raise (`.strip()` on a non-string); modelled as an error. -/
def expandItem (key : String) (idx : Nat) (raw : List (String × Json)) :
    Except String (List (String × Json)) :=
  let fact_id := orJ (jlookup raw "id") (orJ (jlookup raw "position_id")
    (orJ (jlookup raw "asset_id") (orJ (jlookup raw "account_id")
      (orJ (jlookup raw "client_id") (.str (key ++ "_" ++ toString idx))))))
  let fact1 := setKey raw "id" (.str (pyStr fact_id))
  match orJ (jlookup fact1 "fact_type") (orJ (jlookup fact1 "position_type") (.str key)) with
  | .str derived_type =>
      .ok (describeFact (setKey fact1 "fact_type"
        (.str (normalize_entity_type (some derived_type)))))
  | _ => .error "fact_type value is not a string"

/-- One collection's items, enumerated from 1; non-dict items are skipped
but still advance the index. -/
def expandItems (key : String) : Nat → List Json → Except String (List Json)
  | _, [] => .ok []
  | idx, item :: rest =>
      match item with
      | .obj raw =>
          match expandItem key idx raw with
          | .ok fact =>
              match expandItems key (idx + 1) rest with
              | .ok tail => .ok (.obj fact :: tail)
              | .error e => .error e
          | .error e => .error e
      | _ => expandItems key (idx + 1) rest

/-- All collections of the mapping, in order; non-list values are skipped. -/
def expandCollections : List (String × Json) → Except String (List Json)
  | [] => .ok []
  | (k, v) :: rest =>
      match v with
      | .arr items =>
          (match expandItems k 1 items with
           | .ok here =>
               match expandCollections rest with
               | .ok tail => .ok (here ++ tail)
               | .error e => .error e
           | .error e => .error e)
      | _ => expandCollections rest

/-- `_expand_predicted_facts` (predicted side): a list passes through; a
dict is flattened category-by-category; anything else is a structural error,
and so is a mapping that yields no facts at all. -/
def expand_predicted_facts : Json → Except String (List Json)
  | .arr l => .ok l
  | .obj kvs =>
      (match expandCollections kvs with
       | .ok facts =>
           if facts.isEmpty then
             .error "Predicted facts must contain at least one fact collection."
           else .ok facts
       | .error e => .error e)
  | _ => .error "Predicted facts must be a list or dict of fact collections."

theorem jlookup_map_update (kvs : List (String × Json)) (k : String) (v : Json)
    (h : kvs.any (fun p => p.1 == k) = true) :
    jlookup (kvs.map (fun p => if p.1 = k then (p.1, v) else p)) k = some v := by
  induction kvs with
  | nil => cases h
  | cons p rest ih =>
      by_cases hp : p.1 = k
      · simp [jlookup, hp]
      · have h' : rest.any (fun q => q.1 == k) = true := by
          simpa [List.any_cons, hp] using h
        simpa [jlookup, hp] using ih h'

theorem jlookup_map_update_other (kvs : List (String × Json)) (k k' : String)
    (v : Json) (h : k' ≠ k) :
    jlookup (kvs.map (fun p => if p.1 = k then (p.1, v) else p)) k' = jlookup kvs k' := by
  induction kvs with
  | nil => rfl
  | cons p rest ih =>
      by_cases hp : p.1 = k <;> by_cases hp' : p.1 = k'
      · exact absurd (hp'.symm.trans hp) h
      · have hhead : (if p.1 = k then (p.1, v) else p) = (p.1, v) := by simp [hp]
        unfold jlookup at ih ⊢
        simp only [List.map_cons, hhead]
        rw [List.find?_cons_of_neg _ (by simpa using hp'),
          List.find?_cons_of_neg _ (by simpa using hp')]
        exact ih
      · have hhead : (if p.1 = k then (p.1, v) else p) = p := by simp [hp]
        unfold jlookup
        simp only [List.map_cons, hhead]
        rw [List.find?_cons_of_pos _ (by simpa using hp'),
          List.find?_cons_of_pos _ (by simpa using hp')]
      · have hhead : (if p.1 = k then (p.1, v) else p) = p := by simp [hp]
        unfold jlookup at ih ⊢
        simp only [List.map_cons, hhead]
        rw [List.find?_cons_of_neg _ (by simpa using hp'),
          List.find?_cons_of_neg _ (by simpa using hp')]
        exact ih

theorem jlookup_none_of_not_any (kvs : List (String × Json)) (k : String)
    (h : kvs.any (fun p => p.1 == k) = false) : jlookup kvs k = none := by
  unfold jlookup
  cases hf : kvs.find? (fun p => p.1 == k) with
  | none => rfl
  | some p =>
      have hm := List.mem_of_find?_eq_some hf
      have hpk := List.find?_some hf
      have hany : kvs.any (fun p => p.1 == k) = true := List.any_eq_true.mpr ⟨p, hm, hpk⟩
      rw [h] at hany
      cases hany

theorem jlookup_append_self (kvs : List (String × Json)) (k : String) (v : Json)
    (h : jlookup kvs k = none) : jlookup (kvs ++ [(k, v)]) k = some v := by
  induction kvs with
  | nil => simp [jlookup]
  | cons p rest ih =>
      by_cases hp : p.1 = k
      · simp [jlookup, hp] at h
      · simp only [jlookup, List.cons_append] at h ⊢
        simp only [List.find?] at h ⊢
        rw [show (p.1 == k) = false by simpa using hp] at h ⊢
        exact ih h

theorem jlookup_append_other (kvs : List (String × Json)) (k k' : String)
    (v : Json) (h : k' ≠ k) :
    jlookup (kvs ++ [(k, v)]) k' = jlookup kvs k' := by
  induction kvs with
  | nil => simp [jlookup, show (k == k') = false by simpa using fun hh : k = k' => h hh.symm]
  | cons p rest ih =>
      by_cases hp' : p.1 = k'
      · simp [jlookup, hp']
      · simpa [jlookup, hp'] using ih

theorem jlookup_setKey_self (kvs : List (String × Json)) (k : String) (v : Json) :
    jlookup (setKey kvs k v) k = some v := by
  unfold setKey
  cases hany : kvs.any (fun p => p.1 == k) with
  | true =>
      rw [if_pos rfl]
      exact jlookup_map_update kvs k v hany
  | false =>
      rw [if_neg (by simp)]
      exact jlookup_append_self kvs k v (jlookup_none_of_not_any kvs k hany)

theorem jlookup_setKey_other (kvs : List (String × Json)) (k k' : String)
    (v : Json) (h : k' ≠ k) :
    jlookup (setKey kvs k v) k' = jlookup kvs k' := by
  unfold setKey
  split
  · exact jlookup_map_update_other kvs k k' v h
  · exact jlookup_append_other kvs k k' v h

theorem describeFact_preserves (fact : List (String × Json)) (k : String)
    (h : k ≠ "description") :
    jlookup (describeFact fact) k = jlookup fact k := by
  unfold describeFact
  split
  · rfl
  · have hstep : ∀ f1 : List (String × Json), jlookup f1 k = jlookup fact k →
        jlookup (if truthyJ ((jlookup f1 "description").getD .null) then f1
          else setKey f1 "description"
            (.str (jsonDumps (.obj (f1.filter (fun p => !(p.1 == "description"))))))) k
          = jlookup fact k := by
      intro f1 hf1
      split
      · exact hf1
      · exact (jlookup_setKey_other f1 "description" k _ h).trans hf1
    apply hstep
    split
    · split
      · split
        · split
          · exact jlookup_setKey_other fact "description" k _ h
          · rfl
        · rfl
      · rfl
    · rfl

theorem orJ_falsy (o : Option Json) (b : Json)
    (h : o.all (fun v => !truthyJ v) = true) : orJ o b = b := by
  cases o with
  | none => rfl
  | some v =>
      have : truthyJ v = false := by simpa using h
      simp [orJ, this]

/-- C5 counterexample: a mapping category→list is NOT flattened on the gold
side — `_extract_fact_array` raises its structural error on it — and an
empty mapping (which IS a mapping) still raises on the predicted side, so
"only an input that is neither a list nor a mapping raises" also fails. -/
theorem gold_mapping_not_flattened_cex :
    extract_fact_array (.obj [("assets", .arr [.obj [("name", .str "car")]])]) "gold_facts"
      = .error "Facts must be provided as a list of fact objects." ∧
    expand_predicted_facts (.obj [])
      = .error "Predicted facts must contain at least one fact collection." :=
  ⟨rfl, rfl⟩

theorem expanded_id_lookup (raw : List (String × Json)) (v t : Json) :
    jlookup (describeFact (setKey (setKey raw "id" v) "fact_type" t)) "id" = some v := by
  rw [describeFact_preserves _ _ (by decide),
    jlookup_setKey_other _ _ _ _ (by decide), jlookup_setKey_self]

theorem expanded_fact_type_lookup (raw : List (String × Json)) (v t : Json) :
    jlookup (describeFact (setKey (setKey raw "id" v) "fact_type" t)) "fact_type"
      = some t := by
  rw [describeFact_preserves _ _ (by decide), jlookup_setKey_self]

/-- C5 (amended): only the predicted side flattens mapping inputs, and the
two sides treat the input shapes differently.  Gold side
(`_extract_fact_array`): `None` yields `[]`, a list passes through, a
mapping is accepted only through a list-valued `"facts"` key or the fallback
key, and every other input — a mapping without such a key, a boolean, a
number, a string — raises the structural error.  Predicted side
(`_expand_predicted_facts`): a list passes through and every non-list
non-mapping input (including `None`) raises; a mapping that yields no facts
also raises (counterexample).  Within a flattened mapping: an entry whose
id-candidate fields (`id`, `position_id`, `asset_id`, `account_id`,
`client_id`) all hold no truthy value receives the synthesized id
`"{category}_{index}"` (1-based) whenever it is expanded at all, and —
independently — an entry whose `fact_type`/`position_type` fields hold no
truthy value gets the normalized category name as its type. -/
theorem mapping_flatten_predicted_only :
    (∀ fk : String, extract_fact_array .null fk = .ok []) ∧
    (∀ (l : List Json) (fk : String), extract_fact_array (.arr l) fk = .ok l) ∧
    (∀ (kvs : List (String × Json)) (fk : String) (l : List Json),
      jlookup kvs "facts" = some (.arr l) →
      extract_fact_array (.obj kvs) fk = .ok l) ∧
    (∀ (kvs : List (String × Json)) (fk : String) (l : List Json),
      jlookup kvs "facts" = none → jlookup kvs fk = some (.arr l) →
      extract_fact_array (.obj kvs) fk = .ok l) ∧
    (∀ (b : Bool) (fk : String), extract_fact_array (.bool b) fk
        = .error "Facts must be provided as a list of fact objects.") ∧
    (∀ (n : Int) (fk : String), extract_fact_array (.num n) fk
        = .error "Facts must be provided as a list of fact objects.") ∧
    (∀ (s fk : String), extract_fact_array (.str s) fk
        = .error "Facts must be provided as a list of fact objects.") ∧
    (∀ l : List Json, expand_predicted_facts (.arr l) = .ok l) ∧
    (expand_predicted_facts .null
        = .error "Predicted facts must be a list or dict of fact collections.") ∧
    (∀ b : Bool, expand_predicted_facts (.bool b)
        = .error "Predicted facts must be a list or dict of fact collections.") ∧
    (∀ n : Int, expand_predicted_facts (.num n)
        = .error "Predicted facts must be a list or dict of fact collections.") ∧
    (∀ s : String, expand_predicted_facts (.str s)
        = .error "Predicted facts must be a list or dict of fact collections.") ∧
    (∀ (key : String) (idx : Nat) (raw : List (String × Json)),
      (jlookup raw "id").all (fun v => !truthyJ v) = true →
      (jlookup raw "position_id").all (fun v => !truthyJ v) = true →
      (jlookup raw "asset_id").all (fun v => !truthyJ v) = true →
      (jlookup raw "account_id").all (fun v => !truthyJ v) = true →
      (jlookup raw "client_id").all (fun v => !truthyJ v) = true →
      ∀ fact, expandItem key idx raw = .ok fact →
        jlookup fact "id" = some (.str (key ++ "_" ++ toString idx))) ∧
    (∀ (key : String) (idx : Nat) (raw : List (String × Json)),
      (jlookup raw "fact_type").all (fun v => !truthyJ v) = true →
      (jlookup raw "position_type").all (fun v => !truthyJ v) = true →
      (expandItem key idx raw).toOption.map (fun fact => jlookup fact "fact_type")
        = some (some (.str (normalize_entity_type (some key))))) := by
  refine ⟨fun fk => rfl, fun l fk => rfl, ?_, ?_, fun b fk => rfl, fun n fk => rfl,
    fun s fk => rfl, fun l => rfl, rfl, fun b => rfl, fun n => rfl, fun s => rfl,
    ?_, ?_⟩
  · intro kvs fk l h
    simp [extract_fact_array, h]
  · intro kvs fk l hfacts hfk
    simp [extract_fact_array, hfacts, hfk]
  · intro key idx raw h1 h2 h3 h4 h5 fact hfact
    unfold expandItem at hfact
    rw [orJ_falsy _ _ h1, orJ_falsy _ _ h2, orJ_falsy _ _ h3, orJ_falsy _ _ h4,
      orJ_falsy _ _ h5] at hfact
    dsimp only at hfact
    split at hfact
    · cases hfact
      rw [expanded_id_lookup]
      rfl
    · cases hfact
  · intro key idx raw h6 h7
    unfold expandItem
    dsimp only
    rw [jlookup_setKey_other raw "id" "fact_type" _ (by decide), orJ_falsy _ _ h6]
    rw [jlookup_setKey_other raw "id" "position_type" _ (by decide), orJ_falsy _ _ h7]
    simp [Except.toOption, expanded_fact_type_lookup]

theorem mapping_flatten_predicted_only_witness :
    (jlookup [("gold_facts", Json.arr [])] "facts" = none ∧
      jlookup [("gold_facts", Json.arr [])] "gold_facts" = some (.arr []) ∧
      extract_fact_array (.obj [("gold_facts", Json.arr [])]) "gold_facts" = .ok []) ∧
    ((jlookup [("description", Json.str "d")] "id").all (fun v => !truthyJ v) = true ∧
      (jlookup [("description", Json.str "d")] "client_id").all (fun v => !truthyJ v) = true ∧
      expandItem "assets" 1 [("description", Json.str "d")]
        = .ok [("description", .str "d"), ("id", .str "assets_1"),
            ("fact_type", .str "asset")] ∧
      jlookup [("description", Json.str "d"), ("id", Json.str "assets_1"),
          ("fact_type", Json.str "asset")] "id"
        = some (.str ("assets" ++ "_" ++ toString (1 : Nat)))) ∧
    ((jlookup [("description", Json.str "d")] "fact_type").all (fun v => !truthyJ v) = true ∧
      (expandItem "assets" 1 [("description", Json.str "d")]).toOption.map
          (fun fact => jlookup fact "fact_type")
        = some (some (.str (normalize_entity_type (some "assets"))))) :=
  ⟨⟨rfl, rfl,
    mapping_flatten_predicted_only.2.2.2.1 [("gold_facts", Json.arr [])]
      "gold_facts" [] rfl rfl⟩,
   ⟨rfl, rfl, rfl,
    mapping_flatten_predicted_only.2.2.2.2.2.2.2.2.2.2.2.2.1 "assets" 1
      [("description", Json.str "d")] rfl rfl rfl rfl rfl
      [("description", .str "d"), ("id", .str "assets_1"), ("fact_type", .str "asset")]
      rfl⟩,
   ⟨rfl,
    mapping_flatten_predicted_only.2.2.2.2.2.2.2.2.2.2.2.2.2 "assets" 1
      [("description", Json.str "d")] rfl rfl⟩⟩
